import Mathlib

/-!
Shallow embedding of `src/contracts/EtCloudFhe.sol` (contract `EtCloudFhe`)
and of the oracle boundary it talks to, together with proofs settling the
spec's claims about the encrypted-record lifecycle.

Modelling conventions:
* Solidity `address` and `uint256` are modelled as `Nat`; `msg.sender` and
  `block.timestamp` are explicit parameters of each operation.
* Solidity mappings are total functions with the zero struct as default,
  exactly as in the EVM; `reconstructionResults` uses `Option` because the
  contract only ever writes whole structs there (a missing entry reads as
  the zero struct, see `getReconstructionResult`).
* A reverting call is an `Except.error`: the EVM discards all writes on
  revert, so an error carries no successor state (no partial mutation).
* `euint32` ciphertext handles are opaque; `FHE.asEuint32` wraps a cleartext
  `uint32` into a fresh handle.
-/

/-- Opaque `euint32` ciphertext handle: either a pre-existing handle (as
uploaded) or a trivial encryption of a cleartext produced by
`FHE.asEuint32`. The zero handle is the mapping default. -/
inductive Euint32 where
  | handle : Nat → Euint32
  | enc : Nat → Euint32
deriving DecidableEq, Repr

namespace FHE

/-- Embedding of `FHE.asEuint32(uint32)`: wraps a cleartext value (reduced
mod 2^32, the `uint32` range enforced by `abi.decode`) into a handle. -/
def asEuint32 (v : Nat) : Euint32 :=
  Euint32.enc (v % 2 ^ 32)

end FHE

/-- Struct `EncryptedImage` of `EtCloudFhe.sol`. -/
structure EncryptedImage where
  id : Nat
  owner : Nat
  encryptedData : Euint32
  timestamp : Nat
  isProcessed : Bool
deriving DecidableEq, Repr

/-- Struct `ReconstructionResult` of `EtCloudFhe.sol`. -/
structure ReconstructionResult where
  imageId : Nat
  encryptedResult : Euint32
  timestamp : Nat
deriving DecidableEq, Repr

/-- Zero struct read from `encryptedImages` at an unwritten key. -/
def defaultImage : EncryptedImage :=
  { id := 0, owner := 0, encryptedData := Euint32.handle 0, timestamp := 0, isProcessed := false }

/-- Zero struct read from `reconstructionResults` at an unwritten key. -/
def defaultResult : ReconstructionResult :=
  { imageId := 0, encryptedResult := Euint32.handle 0, timestamp := 0 }

/-- Pointwise update of a Solidity mapping. -/
def mapSet {α : Type} (m : Nat → α) (k : Nat) (v : α) : Nat → α :=
  fun k' => if k' = k then v else m k'

/-- Storage of contract `EtCloudFhe`: `imageCount` and the three mappings. -/
structure ContractState where
  imageCount : Nat
  encryptedImages : Nat → EncryptedImage
  reconstructionResults : Nat → Option ReconstructionResult
  userImages : Nat → List Nat

/-- Storage at deployment: zero count, all mappings at their defaults. -/
def initState : ContractState :=
  { imageCount := 0
    encryptedImages := fun _ => defaultImage
    reconstructionResults := fun _ => none
    userImages := fun _ => [] }

/-- Revert reasons of the contract, named after the spec's error taxonomy.
`NotAuthorized` is the `onlyImageOwner` require ("Not image owner"),
`AlreadyProcessed` is "Image already processed", `NotReady` is
"Reconstruction not completed", `InvalidProof` is the revert inside
`FHE.checkSignatures`. `UnknownRequest` appears in the spec's taxonomy but
is produced by no code path of the contract. -/
inductive ContractError where
  | NotAuthorized
  | AlreadyProcessed
  | NotReady
  | InvalidProof
  | UnknownRequest
deriving DecidableEq, Repr

/-- Embedding of `uploadEncryptedImage(euint32)`: increments `imageCount`,
stores the new `EncryptedImage` under the new id, appends the id to
`userImages[msg.sender]`. Never reverts. -/
def uploadEncryptedImage (s : ContractState) (caller time : Nat)
    (encryptedData : Euint32) : ContractState :=
  let newId := s.imageCount + 1
  { imageCount := newId
    encryptedImages := mapSet s.encryptedImages newId
      { id := newId, owner := caller, encryptedData := encryptedData,
        timestamp := time, isProcessed := false }
    reconstructionResults := s.reconstructionResults
    userImages := fun a => if a = caller then s.userImages a ++ [newId] else s.userImages a }

/-- Embedding of `requestReconstruction(uint256)`. The `onlyImageOwner`
modifier runs first, then `require(!isProcessed)`. On success the contract
hands `FHE.toBytes32(encryptedData)` to the oracle (returned as the second
component) and obtains a request id `reqId` from `FHE.requestDecryption`;
`reqId` is a dead local in the source, so it is a parameter here and does
not occur in the body. No storage is written. -/
def requestReconstruction (s : ContractState) (caller imageId reqId : Nat) :
    Except ContractError (ContractState × Euint32) :=
  if (s.encryptedImages imageId).owner ≠ caller then
    Except.error ContractError.NotAuthorized
  else if (s.encryptedImages imageId).isProcessed then
    Except.error ContractError.AlreadyProcessed
  else
    Except.ok (s, (s.encryptedImages imageId).encryptedData)

/-- Embedding of `processReconstruction(uint256,bytes,bytes)`.
`FHE.checkSignatures` is the first statement and reverts when the proof
does not verify (`proofOk = false`); `cleartexts` stands for the
`abi.decode`d `uint32`. On success the contract unconditionally stores a
`ReconstructionResult` under `requestId` and sets
`encryptedImages[requestId].isProcessed` — there is no lookup of the
request id and no re-check of `isProcessed`. -/
def processReconstruction (s : ContractState) (time requestId cleartexts : Nat)
    (proofOk : Bool) : Except ContractError ContractState :=
  if proofOk then
    Except.ok
      { s with
        reconstructionResults := mapSet s.reconstructionResults requestId
          (some { imageId := requestId, encryptedResult := FHE.asEuint32 cleartexts,
                  timestamp := time })
        encryptedImages := mapSet s.encryptedImages requestId
          { s.encryptedImages requestId with isProcessed := true } }
  else
    Except.error ContractError.InvalidProof

/-- Embedding of `getReconstructionResult(uint256)`: `onlyImageOwner`,
then `require(isProcessed)`, then the stored result's handle (the zero
struct if the entry was never written, as in the EVM). -/
def getReconstructionResult (s : ContractState) (caller imageId : Nat) :
    Except ContractError Euint32 :=
  if (s.encryptedImages imageId).owner ≠ caller then
    Except.error ContractError.NotAuthorized
  else if (s.encryptedImages imageId).isProcessed = false then
    Except.error ContractError.NotReady
  else
    Except.ok ((s.reconstructionResults imageId).getD defaultResult).encryptedResult

/-- Embedding of `getUserImageIds(address)`. -/
def getUserImageIds (s : ContractState) (user : Nat) : List Nat :=
  s.userImages user

/-- Embedding of `getImageMetadata(uint256)`: an unguarded read of
`(owner, timestamp, isProcessed)`; it cannot revert. -/
def getImageMetadata (s : ContractState) (imageId : Nat) : Nat × Nat × Bool :=
  ((s.encryptedImages imageId).owner,
   (s.encryptedImages imageId).timestamp,
   (s.encryptedImages imageId).isProcessed)

example :
    getImageMetadata (uploadEncryptedImage initState 3 10 (Euint32.handle 42)) 1 =
      (3, 10, false) := by decide

/-!
System model: the contract driven by its three state-changing external
entry points, plus the oracle boundary. Modelled from the spec: the oracle
boundary (spec §6) is not code under `src/` — `FHE.requestDecryption`
returns a correlation id chosen by the external oracle, required only to be
unique for the lifetime of the system (spec §4.3), and a callback's proof
verifies (`FHE.checkSignatures` passes) exactly when its correlation id was
issued by a prior `FHE.requestDecryption` (trusted oracle; the signatures
stay valid, so a verified callback can be replayed). The `SysState` ghost
fields (`issued`, `created`, `requestedIds`, `callbacks`) record the
trace's history and never influence the contract's own storage.
-/

/-- Contract storage together with environment bookkeeping: `issued` holds
the (correlation id, image id) pairs handed to the oracle, `created` the
(record id, owner) pairs in creation order, `requestedIds` the image ids of
successful `requestReconstruction` calls in order, `callbacks` the request
ids of successful `processReconstruction` calls. -/
structure SysState where
  contract : ContractState
  issued : List (Nat × Nat)
  created : List (Nat × Nat)
  requestedIds : List Nat
  callbacks : List Nat

/-- Correlation ids handed out so far. -/
def issuedIds (S : SysState) : List Nat :=
  S.issued.map Prod.fst

/-- System state at deployment. -/
def initSys : SysState :=
  { contract := initState, issued := [], created := [], requestedIds := [], callbacks := [] }

/-- One external call: an upload (caller, timestamp, ciphertext), a
reconstruction request (caller, image id, oracle-chosen correlation id), or
an oracle callback (timestamp, correlation id, decoded cleartext). -/
inductive Op where
  | upload : Nat → Nat → Euint32 → Op
  | request : Nat → Nat → Nat → Op
  | process : Nat → Nat → Nat → Op

/-- Effect of one external call on the system. A reverting call leaves the
state unchanged. A callback's proof verifies exactly when its correlation
id was issued (trusted oracle, spec §6). -/
def step (S : SysState) : Op → SysState
  | Op.upload caller time d =>
      { S with
        contract := uploadEncryptedImage S.contract caller time d
        created := S.created ++ [(S.contract.imageCount + 1, caller)] }
  | Op.request caller imageId reqId =>
      match requestReconstruction S.contract caller imageId reqId with
      | Except.ok _ =>
          { S with
            issued := S.issued ++ [(reqId, imageId)]
            requestedIds := S.requestedIds ++ [imageId] }
      | Except.error _ => S
  | Op.process time reqId clear =>
      match processReconstruction S.contract time reqId clear
          (decide (reqId ∈ issuedIds S)) with
      | Except.ok s' =>
          { S with contract := s', callbacks := S.callbacks ++ [reqId] }
      | Except.error _ => S

/-- Run a sequence of external calls. -/
def runOps (S : SysState) : List Op → SysState
  | [] => S
  | op :: rest => runOps (step S op) rest

/-- Environment constraints on one call: a transaction sender is never the
zero address, and the oracle never reuses a correlation id (spec §4.3). -/
def wfOpB (S : SysState) : Op → Bool
  | Op.upload caller _ _ => caller != 0
  | Op.request caller _ reqId => caller != 0 && !((issuedIds S).contains reqId)
  | Op.process _ _ _ => true

/-- Well-formedness of a whole call sequence from a given state. -/
def TraceWF (S : SysState) : List Op → Bool
  | [] => true
  | op :: rest => wfOpB S op && TraceWF (step S op) rest

/-- States reachable from deployment by well-formed call sequences. -/
def Reachable (S : SysState) : Prop :=
  ∃ ops, TraceWF initSys ops = true ∧ runOps initSys ops = S

/-- A call is aligned when, if it is a request, the oracle-chosen
correlation id equals the image id — the identification the contract bakes
in by treating the callback's `requestId` as an image id. -/
def opAligned : Op → Bool
  | Op.request _ imageId reqId => reqId == imageId
  | _ => true

/-- States reachable when the oracle's correlation ids coincide with the
image ids being requested. -/
def ReachableAligned (S : SysState) : Prop :=
  ∃ ops, TraceWF initSys ops = true ∧ ops.all opAligned = true ∧ runOps initSys ops = S

/-- Successor state of a non-reverting call, with a fallback default. -/
def stateOf (x : Except ContractError ContractState) (d : ContractState) : ContractState :=
  match x with
  | Except.ok s => s
  | Except.error _ => d

/-- Whether a call ran to completion rather than reverting. -/
def callSucceeds (x : Except ContractError ContractState) : Bool :=
  match x with
  | Except.ok _ => true
  | Except.error _ => false

example :
    ((runOps initSys [Op.upload 3 10 (Euint32.handle 42), Op.request 3 1 1,
      Op.process 11 1 99]).contract.encryptedImages 1).isProcessed = true := by decide

/-! Basic facts about the embedding's building blocks. -/

theorem mapSet_self {α : Type} (m : Nat → α) (k : Nat) (v : α) : mapSet m k v k = v := by
  simp [mapSet]

theorem mapSet_ne {α : Type} (m : Nat → α) (k : Nat) (v : α) (k' : Nat) (h : k' ≠ k) :
    mapSet m k v k' = m k' := by
  simp [mapSet, h]

/-- The list `[1, 2, …, n]` of ids handed out by `n` uploads. -/
def idsUpTo : Nat → List Nat
  | 0 => []
  | n + 1 => idsUpTo n ++ [n + 1]

theorem mem_idsUpTo (j n : Nat) : j ∈ idsUpTo n ↔ 1 ≤ j ∧ j ≤ n := by
  induction n with
  | zero =>
      simp only [idsUpTo, List.not_mem_nil, false_iff]
      omega
  | succ n ih =>
      rw [idsUpTo, List.mem_append, List.mem_singleton, ih]
      omega

theorem idsUpTo_pairwise (n : Nat) : (idsUpTo n).Pairwise (· < ·) := by
  induction n with
  | zero => exact List.Pairwise.nil
  | succ n ih =>
      rw [idsUpTo, List.pairwise_append]
      refine ⟨ih, List.pairwise_singleton _ _, ?_⟩
      intro a ha b hb
      rw [mem_idsUpTo] at ha
      rw [List.mem_singleton] at hb
      omega

/-- A successful request implies the ownership and freshness guards passed,
and shows what the call returned. -/
theorem requestReconstruction_ok (s : ContractState) (c i r : Nat)
    (out : ContractState × Euint32)
    (h : requestReconstruction s c i r = Except.ok out) :
    (s.encryptedImages i).owner = c ∧ (s.encryptedImages i).isProcessed = false ∧
      out = (s, (s.encryptedImages i).encryptedData) := by
  rw [requestReconstruction] at h
  split at h
  · exact absurd h (by simp)
  · split at h
    · exact absurd h (by simp)
    · next h1 h2 =>
        refine ⟨not_not.mp h1, Bool.not_eq_true _ ▸ h2, ?_⟩
        exact (Except.ok.injEq _ _).mp h.symm

theorem step_request_ok (S : SysState) (c i r : Nat) (out : ContractState × Euint32)
    (h : requestReconstruction S.contract c i r = Except.ok out) :
    step S (Op.request c i r) =
      { S with issued := S.issued ++ [(r, i)], requestedIds := S.requestedIds ++ [i] } := by
  simp [step, h]

theorem step_request_err (S : SysState) (c i r : Nat) (e : ContractError)
    (h : requestReconstruction S.contract c i r = Except.error e) :
    step S (Op.request c i r) = S := by
  simp [step, h]

theorem step_process_mem (S : SysState) (t r c : Nat) (h : r ∈ issuedIds S) :
    step S (Op.process t r c) =
      { S with
        contract :=
          { S.contract with
            reconstructionResults := mapSet S.contract.reconstructionResults r
              (some { imageId := r, encryptedResult := FHE.asEuint32 c, timestamp := t })
            encryptedImages := mapSet S.contract.encryptedImages r
              { S.contract.encryptedImages r with isProcessed := true } }
        callbacks := S.callbacks ++ [r] } := by
  simp [step, processReconstruction, decide_eq_true h]

theorem step_process_not_mem (S : SysState) (t r c : Nat) (h : r ∉ issuedIds S) :
    step S (Op.process t r c) = S := by
  simp [step, processReconstruction, decide_eq_false h]

/-! Invariant behind claim C5: the ghost creation log has ids `1..n` in
order, `imageCount` counts the creations, and each owner's index holds
exactly that owner's creations in order. -/

def createdInv (S : SysState) : Prop :=
  S.contract.imageCount = S.created.length ∧
  S.created.map Prod.fst = idsUpTo S.created.length ∧
  ∀ a, S.contract.userImages a = (S.created.filter (fun p => p.2 == a)).map Prod.fst

theorem createdInv_init : createdInv initSys :=
  ⟨rfl, rfl, fun _ => rfl⟩

theorem createdInv_step (S : SysState) (op : Op) (h : createdInv S) :
    createdInv (step S op) := by
  obtain ⟨hc, hm, hu⟩ := h
  cases op with
  | upload caller time d =>
      refine ⟨?_, ?_, ?_⟩
      · simp [step, uploadEncryptedImage, hc]
      · simp [step, List.map_append, hm, hc, idsUpTo]
      · intro a
        by_cases hac : a = caller
        · subst hac
          simp [step, uploadEncryptedImage, List.filter_append, hu a, hc]
        · have hca : caller ≠ a := fun h' => hac h'.symm
          simp [step, uploadEncryptedImage, List.filter_append, hu a, hac, hca]
  | request caller imageId reqId =>
      cases hreq : requestReconstruction S.contract caller imageId reqId with
      | ok out => rw [step_request_ok S caller imageId reqId out hreq]; exact ⟨hc, hm, hu⟩
      | error e => rw [step_request_err S caller imageId reqId e hreq]; exact ⟨hc, hm, hu⟩
  | process time reqId clear =>
      by_cases hmem : reqId ∈ issuedIds S
      · rw [step_process_mem S time reqId clear hmem]
        exact ⟨hc, hm, hu⟩
      · rw [step_process_not_mem S time reqId clear hmem]
        exact ⟨hc, hm, hu⟩

theorem createdInv_runOps (ops : List Op) :
    ∀ S, createdInv S → createdInv (runOps S ops) := by
  induction ops with
  | nil => intro S h; exact h
  | cons op rest ih => intro S h; exact ih (step S op) (createdInv_step S op h)

theorem createdInv_reachable (S : SysState) (h : Reachable S) : createdInv S := by
  obtain ⟨ops, _, hrun⟩ := h
  exact hrun ▸ createdInv_runOps ops initSys createdInv_init

theorem step_upload_def (S : SysState) (c t : Nat) (d : Euint32) :
    step S (Op.upload c t d) =
      { S with
        contract :=
          { imageCount := S.contract.imageCount + 1
            encryptedImages := mapSet S.contract.encryptedImages (S.contract.imageCount + 1)
              { id := S.contract.imageCount + 1, owner := c, encryptedData := d,
                timestamp := t, isProcessed := false }
            reconstructionResults := S.contract.reconstructionResults
            userImages := fun a =>
              if a = c then S.contract.userImages a ++ [S.contract.imageCount + 1]
              else S.contract.userImages a }
        created := S.created ++ [(S.contract.imageCount + 1, c)] } := rfl

/-! Invariant behind the amended claim C6: a storage slot of
`encryptedImages` that is outside `1..imageCount` and was never hit by a
verified callback still holds the zero struct. -/

def InvB (S : SysState) : Prop :=
  ∀ i, ¬(1 ≤ i ∧ i ≤ S.contract.imageCount) → i ∉ S.callbacks →
    S.contract.encryptedImages i = defaultImage

theorem invB_init : InvB initSys := fun _ _ _ => rfl

theorem invB_step (S : SysState) (op : Op) (h : InvB S) : InvB (step S op) := by
  cases op with
  | upload caller time d =>
      rw [step_upload_def]
      intro i hi hcb
      dsimp only at hi hcb ⊢
      have hne : i ≠ S.contract.imageCount + 1 := by omega
      rw [mapSet_ne _ _ _ _ hne]
      exact h i (by omega) hcb
  | request caller imageId reqId =>
      cases hreq : requestReconstruction S.contract caller imageId reqId with
      | ok out => rw [step_request_ok S caller imageId reqId out hreq]; exact h
      | error e => rw [step_request_err S caller imageId reqId e hreq]; exact h
  | process time reqId clear =>
      by_cases hmem : reqId ∈ issuedIds S
      · rw [step_process_mem S time reqId clear hmem]
        intro i hi hcb
        dsimp only at hi hcb ⊢
        rw [List.mem_append, List.mem_singleton] at hcb
        push_neg at hcb
        rw [mapSet_ne _ _ _ _ hcb.2]
        exact h i hi hcb.1
      · rw [step_process_not_mem S time reqId clear hmem]
        exact h

theorem invB_runOps (ops : List Op) : ∀ S, InvB S → InvB (runOps S ops) := by
  induction ops with
  | nil => intro S h; exact h
  | cons op rest ih => intro S h; exact ih (step S op) (invB_step S op h)

theorem invB_reachable (S : SysState) (h : Reachable S) : InvB S := by
  obtain ⟨ops, _, hrun⟩ := h
  exact hrun ▸ invB_runOps ops initSys invB_init

/-! Invariants behind the amended claims C8 and C9, established under the
alignment assumption the contract bakes in: every callback's request id
equals the id of the image whose reconstruction was requested. -/

def imgOk (S : SysState) : Prop :=
  ∀ i, (S.contract.encryptedImages i).owner ≠ 0 → 1 ≤ i ∧ i ≤ S.contract.imageCount

def issuedOk (S : SysState) : Prop :=
  ∀ p ∈ S.issued,
    p.1 = p.2 ∧ (1 ≤ p.2 ∧ p.2 ≤ S.contract.imageCount) ∧ p.2 ∈ S.requestedIds

def resOk (S : SysState) : Prop :=
  ∀ i, (S.contract.reconstructionResults i).isSome = true ↔
    (S.contract.encryptedImages i).isProcessed = true

def procOk (S : SysState) : Prop :=
  ∀ i, (S.contract.encryptedImages i).isProcessed = true →
    (1 ≤ i ∧ i ≤ S.contract.imageCount) ∧ i ∈ S.requestedIds

def InvA (S : SysState) : Prop := imgOk S ∧ issuedOk S ∧ resOk S ∧ procOk S

theorem invA_init : InvA initSys := by
  refine ⟨?_, ?_, ?_, ?_⟩
  · intro i h; exact absurd rfl h
  · intro p hp; exact absurd hp (List.not_mem_nil p)
  · intro i; exact Iff.rfl
  · intro i h; exact absurd h (by simp [initSys, initState, defaultImage])

theorem invA_step (S : SysState) (op : Op) (hwf : wfOpB S op = true)
    (hal : opAligned op = true) (h : InvA S) : InvA (step S op) := by
  obtain ⟨h1, h2, h3, h4⟩ := h
  cases op with
  | upload caller time d =>
      rw [step_upload_def]
      refine ⟨?_, ?_, ?_, ?_⟩
      · intro i hown
        dsimp only at hown ⊢
        by_cases hie : i = S.contract.imageCount + 1
        · omega
        · rw [mapSet_ne _ _ _ _ hie] at hown
          have := h1 i hown
          omega
      · intro p hp
        dsimp only
        obtain ⟨e1, e2, e3⟩ := h2 p hp
        exact ⟨e1, by omega, e3⟩
      · intro i
        dsimp only
        by_cases hie : i = S.contract.imageCount + 1
        · subst hie
          rw [mapSet_self]
          constructor
          · intro hs
            have hproc := (h3 _).mp hs
            have := (h4 _ hproc).1
            omega
          · intro hf; exact absurd hf (by simp)
        · rw [mapSet_ne _ _ _ _ hie]; exact h3 i
      · intro i hproc
        dsimp only at hproc ⊢
        by_cases hie : i = S.contract.imageCount + 1
        · rw [hie, mapSet_self] at hproc
          exact absurd hproc (by simp)
        · rw [mapSet_ne _ _ _ _ hie] at hproc
          obtain ⟨hr, hm⟩ := h4 i hproc
          exact ⟨by omega, hm⟩
  | request caller imageId reqId =>
      cases hreq : requestReconstruction S.contract caller imageId reqId with
      | error e => rw [step_request_err S caller imageId reqId e hreq]; exact ⟨h1, h2, h3, h4⟩
      | ok out =>
          rw [step_request_ok S caller imageId reqId out hreq]
          obtain ⟨hown, hnproc, _⟩ := requestReconstruction_ok _ _ _ _ _ hreq
          simp only [wfOpB, Bool.and_eq_true, bne_iff_ne, ne_eq] at hwf
          simp only [opAligned, beq_iff_eq] at hal
          refine ⟨h1, ?_, h3, ?_⟩
          · intro p hp
            dsimp only at hp ⊢
            rw [List.mem_append, List.mem_singleton] at hp
            cases hp with
            | inl hmem =>
                obtain ⟨e1, e2, e3⟩ := h2 p hmem
                exact ⟨e1, e2, List.mem_append_left _ e3⟩
            | inr hpe =>
                subst hpe
                have ho : (S.contract.encryptedImages imageId).owner ≠ 0 := by
                  rw [hown]; exact hwf.1
                exact ⟨hal, h1 imageId ho,
                  List.mem_append_right _ (List.mem_singleton_self _)⟩
          · intro i hproc
            obtain ⟨hr, hm⟩ := h4 i hproc
            exact ⟨hr, List.mem_append_left _ hm⟩
  | process time reqId clear =>
      by_cases hmem : reqId ∈ issuedIds S
      · rw [step_process_mem S time reqId clear hmem]
        obtain ⟨p, hp, hfst⟩ := List.mem_map.mp hmem
        obtain ⟨e1, e2, e3⟩ := h2 p hp
        have hre : reqId = p.2 := hfst ▸ e1
        refine ⟨?_, ?_, ?_, ?_⟩
        · intro i hown
          dsimp only at hown ⊢
          by_cases hie : i = reqId
          · subst hie
            rw [mapSet_self] at hown
            exact h1 _ hown
          · rw [mapSet_ne _ _ _ _ hie] at hown
            exact h1 i hown
        · intro q hq
          exact h2 q hq
        · intro i
          dsimp only
          by_cases hie : i = reqId
          · subst hie
            rw [mapSet_self, mapSet_self]
            simp
          · rw [mapSet_ne _ _ _ _ hie, mapSet_ne _ _ _ _ hie]
            exact h3 i
        · intro i hproc
          dsimp only at hproc ⊢
          by_cases hie : i = reqId
          · subst hie
            exact ⟨by omega, by rw [hre]; exact e3⟩
          · rw [mapSet_ne _ _ _ _ hie] at hproc
            exact h4 i hproc
      · rw [step_process_not_mem S time reqId clear hmem]
        exact ⟨h1, h2, h3, h4⟩

theorem invA_runOps (ops : List Op) :
    ∀ S, TraceWF S ops = true → ops.all opAligned = true → InvA S →
      InvA (runOps S ops) := by
  induction ops with
  | nil => intro S _ _ h; exact h
  | cons op rest ih =>
      intro S hwf hal h
      rw [TraceWF, Bool.and_eq_true] at hwf
      rw [List.all_cons, Bool.and_eq_true] at hal
      exact ih (step S op) hwf.2 hal.2 (invA_step S op hwf.1 hal.1 h)

theorem invA_reachableAligned (S : SysState) (h : ReachableAligned S) : InvA S := by
  obtain ⟨ops, hwf, hal, hrun⟩ := h
  exact hrun ▸ invA_runOps ops initSys hwf hal invA_init

/-- In a state satisfying the aligned invariant, a set processed flag
survives any further external call, well-formed or not. -/
theorem processed_mono_step (S : SysState) (op : Op) (i : Nat) (h : InvA S)
    (hp : (S.contract.encryptedImages i).isProcessed = true) :
    ((step S op).contract.encryptedImages i).isProcessed = true := by
  cases op with
  | upload caller time d =>
      rw [step_upload_def]
      dsimp only
      have hb := (h.2.2.2 i hp).1
      have hne : i ≠ S.contract.imageCount + 1 := by omega
      rw [mapSet_ne _ _ _ _ hne]
      exact hp
  | request caller imageId reqId =>
      cases hreq : requestReconstruction S.contract caller imageId reqId with
      | ok out => rw [step_request_ok S caller imageId reqId out hreq]; exact hp
      | error e => rw [step_request_err S caller imageId reqId e hreq]; exact hp
  | process time reqId clear =>
      by_cases hmem : reqId ∈ issuedIds S
      · rw [step_process_mem S time reqId clear hmem]
        dsimp only
        by_cases hie : i = reqId
        · subst hie; rw [mapSet_self]
        · rw [mapSet_ne _ _ _ _ hie]; exact hp
      · rw [step_process_not_mem S time reqId clear hmem]
        exact hp

/-! Settling the claims. -/

/-- Storage with a single image, id 1, uploaded by address 3 at time 10. -/
def oneUpload : ContractState :=
  uploadEncryptedImage initState 3 10 (Euint32.handle 42)

/-- C1: the claim requires a second `requestTransform` on the same id,
issued after a first successful one and before any callback, to fail with
`AlreadyRequested`. The contract accepts it: the only guard of
`requestReconstruction` is `isProcessed`, the call writes no storage, and
no in-flight marker exists, so the second call succeeds exactly like the
first (on the very state the first call returned). -/
theorem double_request_accepted :
    requestReconstruction oneUpload 3 1 100 = Except.ok (oneUpload, Euint32.handle 42) ∧
    requestReconstruction oneUpload 3 1 101 = Except.ok (oneUpload, Euint32.handle 42) :=
  ⟨rfl, rfl⟩

/-- C2 counterexample: with no correlation id ever issued, a callback for
id 7 does not fail with `UnknownRequest` — the contract has no such check;
it reverts inside proof verification instead (`InvalidProof`), the trusted
oracle verifying no proof for an unissued id. -/
theorem unknown_correlation_not_unknownRequest :
    processReconstruction initSys.contract 5 7 42
        (decide ((7 : Nat) ∈ issuedIds initSys)) =
      Except.error ContractError.InvalidProof ∧
    ContractError.InvalidProof ≠ ContractError.UnknownRequest :=
  ⟨rfl, by decide⟩

/-- C2 (amended): a callback whose correlation id was never issued fails —
with `InvalidProof`, because the trusted oracle's verification cannot pass
for an unissued id and the contract performs no correlation lookup of its
own — and the revert leaves every record and result entry unchanged
(the system step is the identity). -/
theorem process_unissued_rejected (S : SysState) (t reqId c : Nat)
    (h : reqId ∉ issuedIds S) :
    processReconstruction S.contract t reqId c (decide (reqId ∈ issuedIds S)) =
      Except.error ContractError.InvalidProof ∧
    step S (Op.process t reqId c) = S := by
  constructor
  · rw [decide_eq_false h]; rfl
  · exact step_process_not_mem S t reqId c h

/-- Witness for C2's amended theorem at a concrete unissued id. -/
theorem process_unissued_rejected_witness :
    processReconstruction initSys.contract 4 9 13
        (decide ((9 : Nat) ∈ issuedIds initSys)) =
      Except.error ContractError.InvalidProof ∧
    step initSys (Op.process 4 9 13) = initSys :=
  process_unissued_rejected initSys 4 9 13 (by decide)

/-- Upload by 3, aligned request on image 1, first callback at time 8 with
cleartext 55, second callback at time 9 with cleartext 77. -/
def ops3 : List Op :=
  [Op.upload 3 10 (Euint32.handle 42), Op.request 3 1 1, Op.process 8 1 55,
   Op.process 9 1 77]

/-- C3 counterexample: after image 1 is processed with stored result 55, a
further verified callback for id 1 does not fail with `AlreadyProcessed` —
`processReconstruction` re-checks nothing — and it overwrites the stored
`ReconstructionResult`, so the result is neither created exactly once nor
immutable. -/
theorem second_callback_overwrites :
    TraceWF initSys ops3 = true ∧
    ((runOps initSys (ops3.take 3)).contract.encryptedImages 1).isProcessed = true ∧
    (runOps initSys (ops3.take 3)).contract.reconstructionResults 1 =
      some { imageId := 1, encryptedResult := FHE.asEuint32 55, timestamp := 8 } ∧
    callSucceeds (processReconstruction (runOps initSys (ops3.take 3)).contract 9 1 77
      (decide ((1 : Nat) ∈ issuedIds (runOps initSys (ops3.take 3))))) = true ∧
    (runOps initSys ops3).contract.reconstructionResults 1 =
      some { imageId := 1, encryptedResult := FHE.asEuint32 77, timestamp := 9 } :=
  ⟨by decide, by decide, by decide, by decide, by decide⟩

/-- C3 (amended): a further verified completion for an already-processed id
succeeds (there is no `AlreadyProcessed` re-check) and overwrites the
stored result with the new callback's wrapped cleartext; the processed flag
stays true. The stored result is write-once only as long as no second
verified callback arrives. -/
theorem process_already_processed_overwrites (s : ContractState) (t i c : Nat)
    (hp : (s.encryptedImages i).isProcessed = true) :
    callSucceeds (processReconstruction s t i c true) = true ∧
    ∀ s', processReconstruction s t i c true = Except.ok s' →
      s'.reconstructionResults i =
        some { imageId := i, encryptedResult := FHE.asEuint32 c, timestamp := t } ∧
      (s'.encryptedImages i).isProcessed = true := by
  refine ⟨rfl, ?_⟩
  intro s' h
  rw [processReconstruction, if_pos rfl] at h
  injection h with h'
  subst h'
  constructor
  · exact mapSet_self _ _ _
  · simp [mapSet_self]

/-- Storage in which image 1 is processed (result stored at time 7). -/
def procState : ContractState :=
  stateOf (processReconstruction oneUpload 7 1 5 true) oneUpload

/-- Witness for C3's amended theorem on a concrete processed record. -/
theorem process_already_processed_overwrites_witness :
    (procState.encryptedImages 1).isProcessed = true ∧
    callSucceeds (processReconstruction procState 9 1 77 true) = true ∧
    (stateOf (processReconstruction procState 9 1 77 true) procState).reconstructionResults 1 =
      some { imageId := 1, encryptedResult := FHE.asEuint32 77, timestamp := 9 } :=
  ⟨by decide,
   (process_already_processed_overwrites procState 9 1 77 (by decide)).1,
   ((process_already_processed_overwrites procState 9 1 77 (by decide)).2 _ rfl).1⟩

/-- C4: with any caller other than the stored owner, both
`requestReconstruction` and `getReconstructionResult` revert with
`NotAuthorized` (`onlyImageOwner` is their first check); a revert carries
no successor state, so no record field, result entry or owner index
changes. -/
theorem non_owner_rejected (s : ContractState) (caller imageId reqId : Nat)
    (h : (s.encryptedImages imageId).owner ≠ caller) :
    requestReconstruction s caller imageId reqId =
      Except.error ContractError.NotAuthorized ∧
    getReconstructionResult s caller imageId =
      Except.error ContractError.NotAuthorized := by
  constructor
  · rw [requestReconstruction, if_pos h]
  · rw [getReconstructionResult, if_pos h]

/-- Witness for C4: address 4 is not the owner of image 1. -/
theorem non_owner_rejected_witness :
    requestReconstruction oneUpload 4 1 100 =
      Except.error ContractError.NotAuthorized ∧
    getReconstructionResult oneUpload 4 1 =
      Except.error ContractError.NotAuthorized :=
  non_owner_rejected oneUpload 4 1 100 (by decide)

/-- C5: along every well-formed call sequence the upload ids are `1..n` in
creation order — unique, strictly increasing, dense positive integers, each
the previous count plus one starting at 1 — and `getUserImageIds` returns
exactly the ids created by each identity, in creation order. -/
theorem upload_ids_dense_and_owned (S : SysState) (h : Reachable S) :
    S.contract.imageCount = S.created.length ∧
    S.created.map Prod.fst = idsUpTo S.created.length ∧
    (S.created.map Prod.fst).Pairwise (· < ·) ∧
    (∀ j, j ∈ S.created.map Prod.fst ↔ 1 ≤ j ∧ j ≤ S.contract.imageCount) ∧
    (∀ a, getUserImageIds S.contract a =
      (S.created.filter (fun p => p.2 == a)).map Prod.fst) := by
  obtain ⟨hc, hm, hu⟩ := createdInv_reachable S h
  refine ⟨hc, hm, ?_, ?_, hu⟩
  · rw [hm]; exact idsUpTo_pairwise _
  · intro j; rw [hm, mem_idsUpTo, hc]

/-- Three uploads: two by address 3 with one by address 4 in between. -/
def opsW5 : List Op :=
  [Op.upload 3 10 (Euint32.handle 1), Op.upload 4 11 (Euint32.handle 2),
   Op.upload 3 12 (Euint32.handle 3)]

/-- Witness for C5 on a concrete trace: ids 1,2,3 are assigned in order and
address 3 owns exactly ids 1 and 3, in creation order. -/
theorem upload_ids_dense_and_owned_witness :
    (runOps initSys opsW5).created.map Prod.fst =
      idsUpTo (runOps initSys opsW5).created.length ∧
    getUserImageIds (runOps initSys opsW5).contract 3 = [1, 3] := by
  have h := upload_ids_dense_and_owned (runOps initSys opsW5) ⟨opsW5, by decide, rfl⟩
  exact ⟨h.2.1, (h.2.2.2.2 3).trans (by decide)⟩

/-- C6 counterexample: reading metadata of id 1 in the deployment state —
where no record was ever created — does not fail with `NotFound`: the
function has no existence check and returns the zero struct's fields. -/
theorem metadata_does_not_fail :
    getImageMetadata initState 1 = (0, 0, false) := by decide

/-- C6 (amended): `getImageMetadata` cannot fail; for an id for which no
record was ever created (outside `1..imageCount`) and at which no verified
callback ever landed, it returns the mapping defaults `(0, 0, false)`
rather than a `NotFound` failure. -/
theorem metadata_unknown_id_defaults (S : SysState) (i : Nat) (h : Reachable S)
    (h1 : ¬(1 ≤ i ∧ i ≤ S.contract.imageCount)) (h2 : i ∉ S.callbacks) :
    getImageMetadata S.contract i = (0, 0, false) := by
  rw [getImageMetadata, invB_reachable S h i h1 h2]
  rfl

/-- Witness for C6's amended theorem: after one upload, id 2 was never
created and reads as the defaults. -/
theorem metadata_unknown_id_defaults_witness :
    getImageMetadata (runOps initSys [Op.upload 3 10 (Euint32.handle 1)]).contract 2 =
      (0, 0, false) :=
  metadata_unknown_id_defaults (runOps initSys [Op.upload 3 10 (Euint32.handle 1)]) 2
    ⟨[Op.upload 3 10 (Euint32.handle 1)], by decide, rfl⟩ (by decide) (by decide)

/-- C7: for the record's owner as caller, the result read fails with
`NotReady` exactly when the record is not completed (`isProcessed` false),
otherwise returns the stored `ReconstructionResult`'s handle; and
immediately after a verified callback for the record's id it returns the
wrap of that callback's cleartext. -/
theorem read_result_iff_completed (s : ContractState) (imageId caller : Nat)
    (hown : (s.encryptedImages imageId).owner = caller) :
    ((s.encryptedImages imageId).isProcessed = false →
      getReconstructionResult s caller imageId = Except.error ContractError.NotReady) ∧
    ((s.encryptedImages imageId).isProcessed = true →
      getReconstructionResult s caller imageId =
        Except.ok ((s.reconstructionResults imageId).getD defaultResult).encryptedResult) ∧
    (∀ t c s', processReconstruction s t imageId c true = Except.ok s' →
      getReconstructionResult s' caller imageId = Except.ok (FHE.asEuint32 c)) := by
  have hno : ¬(s.encryptedImages imageId).owner ≠ caller := fun hx => hx hown
  refine ⟨?_, ?_, ?_⟩
  · intro hp
    rw [getReconstructionResult, if_neg hno, if_pos hp]
  · intro hp
    rw [getReconstructionResult, if_neg hno, if_neg (by simp [hp])]
  · intro t c s' h
    rw [processReconstruction, if_pos rfl] at h
    injection h with h'
    subst h'
    simp [getReconstructionResult, mapSet_self, hown]

/-- Witness for C7: before any callback the owner's read fails `NotReady`;
after a verified callback with cleartext 99 it returns the wrap of 99. -/
theorem read_result_iff_completed_witness :
    getReconstructionResult oneUpload 3 1 = Except.error ContractError.NotReady ∧
    getReconstructionResult
        (stateOf (processReconstruction oneUpload 8 1 99 true) oneUpload) 3 1 =
      Except.ok (FHE.asEuint32 99) :=
  ⟨(read_result_iff_completed oneUpload 1 3 rfl).1 rfl,
   (read_result_iff_completed oneUpload 1 3 rfl).2.2 8 99 _ rfl⟩

/-- Upload by 3, request on image 1 answered with the oracle's own counter
value 5, callback at 5, then four more uploads so that id 5 is assigned. -/
def ops8 : List Op :=
  [Op.upload 3 10 (Euint32.handle 1), Op.request 3 1 5, Op.process 11 5 99,
   Op.upload 3 12 (Euint32.handle 2), Op.upload 3 13 (Euint32.handle 3),
   Op.upload 3 14 (Euint32.handle 4), Op.upload 3 15 (Euint32.handle 5)]

/-- C8 counterexample: the oracle issues correlation id 5 for a request on
image 1 (the contract discards `FHE.requestDecryption`'s return, so nothing
ties the two); the verified callback for id 5 stores a result at the
never-created id 5 and marks it processed; the fifth upload then assigns
id 5, resetting its processed flag to false while the stored result
persists — both the claimed biconditional and the claimed monotonicity of
`processed` fail in this reachable state. -/
theorem result_without_processed :
    TraceWF initSys ops8 = true ∧
    ((runOps initSys (ops8.take 6)).contract.encryptedImages 5).isProcessed = true ∧
    ((runOps initSys ops8).contract.encryptedImages 5).isProcessed = false ∧
    ((runOps initSys ops8).contract.reconstructionResults 5).isSome = true :=
  ⟨by decide, by decide, by decide, by decide⟩

/-- C8 (amended): provided every callback's request id equals the id of the
image whose reconstruction was requested — the identification the contract
assumes — the invariant holds in every reachable state: a
`ReconstructionResult` exists for an id iff that record's processed flag is
true, and a set processed flag survives every further external call. -/
theorem aligned_result_iff_processed (S : SysState) (h : ReachableAligned S) :
    (∀ i, (S.contract.reconstructionResults i).isSome = true ↔
      (S.contract.encryptedImages i).isProcessed = true) ∧
    (∀ i op, (S.contract.encryptedImages i).isProcessed = true →
      ((step S op).contract.encryptedImages i).isProcessed = true) := by
  have hA := invA_reachableAligned S h
  exact ⟨hA.2.2.1, fun i op hp => processed_mono_step S op i hA hp⟩

/-- Aligned trace: upload, request with correlation id 1 on image 1,
verified callback for id 1. -/
def ops8w : List Op :=
  [Op.upload 3 10 (Euint32.handle 1), Op.request 3 1 1, Op.process 11 1 99]

/-- Witness for C8's amended theorem on a concrete aligned trace. -/
theorem aligned_result_iff_processed_witness :
    (((runOps initSys ops8w).contract.reconstructionResults 1).isSome = true ↔
      ((runOps initSys ops8w).contract.encryptedImages 1).isProcessed = true) ∧
    ((step (runOps initSys ops8w)
        (Op.upload 4 20 (Euint32.handle 7))).contract.encryptedImages 1).isProcessed =
      true := by
  have h := aligned_result_iff_processed (runOps initSys ops8w)
    ⟨ops8w, by decide, by decide, rfl⟩
  exact ⟨h.1 1, h.2 1 (Op.upload 4 20 (Euint32.handle 7)) (by decide)⟩

/-- Two uploads by 7, request on image 2 answered with correlation id 1,
verified callback for id 1. -/
def ops9 : List Op :=
  [Op.upload 7 10 (Euint32.handle 5), Op.upload 7 11 (Euint32.handle 6),
   Op.request 7 2 1, Op.process 12 1 99]

/-- C9 counterexample: the oracle issues correlation id 1 for a request on
image 2; the verified callback for id 1 then completes image 1, which was
never the subject of any successful request — the record reaches
`Completed` without ever entering `RequestSent`. -/
theorem completed_without_request :
    TraceWF initSys ops9 = true ∧
    ((runOps initSys ops9).contract.encryptedImages 1).isProcessed = true ∧
    (runOps initSys ops9).requestedIds = [2] ∧
    ¬1 ∈ (runOps initSys ops9).requestedIds :=
  ⟨by decide, by decide, by decide, by decide⟩

/-- C9 (amended): under the alignment assumption the contract bakes in
(callback request ids equal requested image ids), every record whose
processed flag is set was the subject of an earlier successful
`requestReconstruction`. -/
theorem aligned_completed_was_requested (S : SysState) (h : ReachableAligned S)
    (i : Nat) (hp : (S.contract.encryptedImages i).isProcessed = true) :
    i ∈ S.requestedIds :=
  ((invA_reachableAligned S h).2.2.2 i hp).2

/-- Aligned trace for the C9 witness. -/
def ops9w : List Op :=
  [Op.upload 5 10 (Euint32.handle 2), Op.request 5 1 1, Op.process 11 1 4]

/-- Witness for C9's amended theorem. -/
theorem aligned_completed_was_requested_witness :
    1 ∈ (runOps initSys ops9w).requestedIds :=
  aligned_completed_was_requested (runOps initSys ops9w)
    ⟨ops9w, by decide, by decide, rfl⟩ 1 (by decide)

/-- C10: a successful `requestReconstruction` writes no storage — the
state it returns is the input state, every record field and mapping entry
included; the hand-off to the oracle is the record's stored ciphertext
handle; and the oracle's request id is dead on arrival: any other id gives
the identical outcome, so the correlation id is discarded, not stored. -/
theorem request_no_state_change (s : ContractState) (caller imageId reqId : Nat)
    (out : ContractState × Euint32)
    (h : requestReconstruction s caller imageId reqId = Except.ok out) :
    out.1 = s ∧ out.2 = (s.encryptedImages imageId).encryptedData ∧
    ∀ reqId2, requestReconstruction s caller imageId reqId2 = Except.ok out := by
  obtain ⟨hown, hnp, hout⟩ := requestReconstruction_ok s caller imageId reqId out h
  subst hout
  refine ⟨rfl, rfl, ?_⟩
  intro r2
  rw [requestReconstruction, if_neg (fun hx => hx hown), if_neg (by simp [hnp])]

/-- Witness for C10: the successful request on image 1 returns the input
state unchanged, whatever request id the oracle picked. -/
theorem request_no_state_change_witness :
    requestReconstruction oneUpload 3 1 100 = Except.ok (oneUpload, Euint32.handle 42) ∧
    requestReconstruction oneUpload 3 1 200 = Except.ok (oneUpload, Euint32.handle 42) :=
  ⟨(request_no_state_change oneUpload 3 1 100 (oneUpload, Euint32.handle 42) rfl).2.2 100,
   (request_no_state_change oneUpload 3 1 100 (oneUpload, Euint32.handle 42) rfl).2.2 200⟩
